import Mathlib

/-!
Verification of the user-management CRUD service (`app/main.py`, `app/db.py`,
`app/models.py`, `app/config.py`).

The service is a thin HTTP-to-SQL layer over a single SQLite table
`users(id PK AUTOINCREMENT, name, email UNIQUE, phone, created_at, updated_at)`.
We embed the observable behaviour of each route handler as a pure function over
an explicit store:

* a `Store` is the list of rows of the `users` table together with the
  AUTOINCREMENT sequence value (SQLite never reuses a value of the sequence,
  so inserts use `seq + 1` and bump `seq`);
* `CURRENT_TIMESTAMP` is an explicit `now : Nat` argument;
* each handler returns `Except HTTPError _` together with the post-state;
* the SQL `LIKE` predicate used by the search handler is embedded with
  SQLite's semantics (`%` matches any sequence, `_` any single character,
  ASCII-case-insensitive comparison elsewhere).
-/

/-- A row of the `users` table (schema `CREATE_USERS_TABLE` in `app/db.py`).
`createdAt`/`updatedAt` are timestamps modelled as abstract clock values. -/
structure StoredUser where
  id : Int
  name : String
  email : String
  phone : String
  createdAt : Nat
  updatedAt : Nat
  deriving Repr, DecidableEq

/-- The database state: the rows of `users` plus the AUTOINCREMENT sequence.
SQLite's AUTOINCREMENT guarantees a freshly inserted row gets `seq + 1` where
`seq` only ever grows, even across deletes. -/
structure Store where
  users : List StoredUser
  seq : Int
  deriving Repr, DecidableEq

/-- AUTOINCREMENT invariant: every stored id was drawn from the sequence. -/
def Store.WF (st : Store) : Prop :=
  ∀ r ∈ st.users, r.id ≤ st.seq

/-- An error response raised via `HTTPException(status_code=..., detail=...)`. -/
structure HTTPError where
  status : Nat
  detail : String
  deriving Repr, DecidableEq

/-- The JSON user object returned by the handlers (`response_model=User`). -/
structure UserOut where
  id : Int
  name : String
  email : String
  phone : String
  deriving Repr, DecidableEq

/-- Request body of `POST /users/` (`UserCreate` in `app/models.py`):
all three fields are required strings; only `email` carries a format
constraint (`EmailStr`), checked at the boundary, see `emailSyntaxOK`. -/
structure UserCreate where
  name : String
  email : String
  phone : String
  deriving Repr, DecidableEq

/-- Request body of `PUT /users/{id}` (`UserUpdate` in `app/models.py`):
every field optional, absent fields decoded as `None`. -/
structure UserUpdate where
  name : Option String
  email : Option String
  phone : Option String
  deriving Repr, DecidableEq

deriving instance DecidableEq for Except

/-- `GET /users/{user_id}` (`get_user`, `app/main.py` lines 93-113):
`SELECT id, name, email, phone FROM users WHERE id = ?`; 404 when no row
matches, otherwise the first matching row. -/
def get_user (st : Store) (uid : Int) : Except HTTPError UserOut :=
  match st.users.filter (fun r => r.id == uid) with
  | [] => .error ⟨404, "User not found"⟩
  | r :: _ => .ok ⟨r.id, r.name, r.email, r.phone⟩

/-- `POST /users/` handler body (`create_user`, `app/main.py` lines 115-136):
duplicate-email pre-check (`SELECT id FROM users WHERE email = ?`), then
`INSERT INTO users (name, email, phone) VALUES (?, ?, ?)` returning
`lastrowid`.  The second component is the post-state of the table. -/
def create_user (st : Store) (now : Nat) (u : UserCreate) :
    Except HTTPError UserOut × Store :=
  if (st.users.filter (fun r => r.email == u.email)).isEmpty then
    let uid := st.seq + 1
    (.ok ⟨uid, u.name, u.email, u.phone⟩,
     ⟨st.users ++ [⟨uid, u.name, u.email, u.phone, now, now⟩], uid⟩)
  else
    (.error ⟨400, "Email already exists"⟩, st)

/-- Modelled from the spec: the boundary email-syntax validation
("validates email syntax at the boundary", "`email`: text conforming to email
syntax") performed by pydantic's `EmailStr` (`app/models.py` line 9), whose
implementation is external to this repository.  Approximated as: exactly one
`@`, a nonempty local part, and a domain that contains a dot and does not
start or end with one. -/
def emailSyntaxOK (e : String) : Bool :=
  let cs := e.toList
  let l := cs.takeWhile (fun c => c ≠ '@')
  let d := (cs.dropWhile (fun c => c ≠ '@')).drop 1
  cs.count '@' == 1 && !l.isEmpty && d.contains '.' &&
    !(d.head? == some '.') && !(d.getLast? == some '.')

/-- The full `POST /users/` route: pydantic validates the `UserCreate` body
(`name`/`phone` are plain `str` fields with no constraint; `email` must pass
`EmailStr`), then the handler `create_user` runs.  A body failing validation
is rejected at the boundary with a 422 validation error. -/
def post_users (st : Store) (now : Nat) (u : UserCreate) :
    Except HTTPError UserOut × Store :=
  if emailSyntaxOK u.email then
    create_user st now u
  else
    (.error ⟨422, "value is not a valid email address"⟩, st)

/-- The dynamically-built `SET` clause of `update_user` (`app/main.py` lines
147-175): each field present in the body overwrites the column, and
`updated_at = CURRENT_TIMESTAMP` is always appended. -/
def applyUpd (now : Nat) (up : UserUpdate) (r : StoredUser) : StoredUser :=
  { r with
    name := up.name.getD r.name
    email := up.email.getD r.email
    phone := up.phone.getD r.phone
    updatedAt := now }

/-- The taken-by-another-user email check of `update_user` (`app/main.py`
lines 155-159): `SELECT id FROM users WHERE email = ? AND id != ?`, run only
when the body supplies `email`. -/
def emailConflict (st : Store) (uid : Int) (up : UserUpdate) : Bool :=
  match up.email with
  | none => false
  | some e => !(st.users.filter (fun r => r.email == e && !(r.id == uid))).isEmpty

/-- `PUT /users/{user_id}` handler body (`update_user`, `app/main.py` lines
138-188): existence check (404), email-collision check (400), empty-body
check (400), dynamic `UPDATE ... SET ..., updated_at = CURRENT_TIMESTAMP
WHERE id = ?`, then re-`SELECT` of the row to build the response (an
impossible empty re-select would raise and be mapped to a 500). -/
def update_user (st : Store) (now : Nat) (uid : Int) (up : UserUpdate) :
    Except HTTPError UserOut × Store :=
  if (st.users.filter (fun r => r.id == uid)).isEmpty then
    (.error ⟨404, "User not found"⟩, st)
  else if emailConflict st uid up then
    (.error ⟨400, "Email already exists"⟩, st)
  else if up.name.isNone && up.email.isNone && up.phone.isNone then
    (.error ⟨400, "No fields to update"⟩, st)
  else
    let users' := st.users.map (fun r => if r.id == uid then applyUpd now up r else r)
    match users'.filter (fun r => r.id == uid) with
    | [] => (.error ⟨500, "Error updating user: list index out of range"⟩, ⟨users', st.seq⟩)
    | r :: _ => (.ok ⟨r.id, r.name, r.email, r.phone⟩, ⟨users', st.seq⟩)

/-- `DELETE /users/{user_id}` handler body (`delete_user`, `app/main.py`
lines 190-206): existence check (404), then `DELETE FROM users WHERE id = ?`
and a confirmation message. -/
def delete_user (st : Store) (uid : Int) :
    Except HTTPError String × Store :=
  if (st.users.filter (fun r => r.id == uid)).isEmpty then
    (.error ⟨404, "User not found"⟩, st)
  else
    (.ok ("User with ID " ++ toString uid ++ " deleted successfully"),
     ⟨st.users.filter (fun r => !(r.id == uid)), st.seq⟩)

/-- SQLite `LIKE` pattern matching over character lists, as used by the
queries `name LIKE ?` / `email LIKE ?` in `search_users` (`app/main.py`
lines 212-216): `%` matches any sequence of characters, `_` matches exactly
one character, and every other character compares ASCII-case-insensitively
(SQLite's default `LIKE` is case-insensitive for ASCII). -/
def likeMatch : List Char → List Char → Bool
  | [], s => s.isEmpty
  | p :: ps, s =>
    if p == '%' then
      s.tails.any (fun t => likeMatch ps t)
    else
      match s with
      | [] => false
      | c :: cs =>
        if p == '_' then likeMatch ps cs
        else p.toLower == c.toLower && likeMatch ps cs

/-- String-level `LIKE`. -/
def sqlLike (pat s : String) : Bool :=
  likeMatch pat.toList s.toList

/-- `GET /users/search` handler body (`search_users`, `app/main.py` lines
208-232): `SELECT id, name, email, phone FROM users WHERE name LIKE ? OR
email LIKE ? LIMIT 20` with both parameters bound to `%query%`. -/
def search_users (st : Store) (q : String) : List UserOut :=
  let pat := "%" ++ q ++ "%"
  ((st.users.filter (fun r => sqlLike pat r.name || sqlLike pat r.email)).take 20).map
    (fun r => ⟨r.id, r.name, r.email, r.phone⟩)

/-- Executable infix test on character lists: `q` occurs as a contiguous
run inside `s`. -/
def infixOf (q s : List Char) : Bool :=
  s.tails.any (fun t => q.isPrefixOf t)

/-- Case-sensitive substring containment, the reading of "contains q as a
substring" used by the spec's search property. -/
def containsSub (q s : String) : Bool :=
  infixOf q.toList s.toList

/-- ASCII-case-insensitive substring containment. -/
def containsCI (q s : String) : Bool :=
  infixOf (q.toList.map Char.toLower) (s.toList.map Char.toLower)

/-! ## Routing

FastAPI (Starlette) tries routes in registration order and dispatches to the
first whose path pattern matches.  We embed the GET route table of
`app/main.py` in source order, with paths as segment lists: `/a/b` becomes
`["a", "b"]` and a trailing slash contributes a final `""` segment. -/

/-- One segment of a route pattern: a literal, or a `{param}` capture. -/
inductive Seg where
  | lit (s : String)
  | param (name : String)
  deriving Repr, DecidableEq

/-- The handlers bound to GET routes in `app/main.py`. -/
inductive GetHandler where
  | root
  | health
  | configInfo
  | getUsers
  | getUser
  | searchUsers
  deriving Repr, DecidableEq

/-- Whether one pattern segment accepts one concrete path segment. -/
def matchSeg : Seg → String → Bool
  | .lit l, s => l == s
  | .param _, _ => true

/-- Whether a route pattern matches a concrete segment list. -/
def matchRoute (pat : List Seg) (segs : List String) : Bool :=
  pat.length == segs.length && (List.zip pat segs).all (fun ps => matchSeg ps.1 ps.2)

/-- The GET routes of `app/main.py` in registration (source) order:
`/` (line 28), `/health` (line 42), `/config` (line 60), `/users/` (line 72),
`/users/{user_id}` (line 93), `/users/search` (line 208). -/
def getRoutes : List (List Seg × GetHandler) :=
  [([], .root),
   ([.lit "health"], .health),
   ([.lit "config"], .configInfo),
   ([.lit "users", .lit ""], .getUsers),
   ([.lit "users", .param "user_id"], .getUser),
   ([.lit "users", .lit "search"], .searchUsers)]

/-- First-match dispatch over the registered GET routes. -/
def dispatchGET (segs : List String) : Option GetHandler :=
  (getRoutes.find? (fun r => matchRoute r.1 segs)).map (fun r => r.2)

/-- Modelled from the spec: FastAPI's integer coercion of a path parameter
declared `user_id: int` (`app/main.py` line 94), performed by the framework
outside this repository: an optional sign followed by at least one decimal
digit parses to the integer, anything else is a 422 validation error. -/
def intParam? (s : String) : Option Int :=
  match s.toList with
  | [] => none
  | '-' :: ds =>
    if ds ≠ [] ∧ ds.all Char.isDigit then
      some (-(Int.ofNat (ds.foldl (fun n c => 10 * n + c.toNat - 48) 0)))
    else none
  | ds =>
    if ds ≠ [] ∧ ds.all Char.isDigit then
      some (Int.ofNat (ds.foldl (fun n c => 10 * n + c.toNat - 48) 0))
    else none

/-- The full `GET /users/{user_id}` route: coerce the captured segment to an
integer (422 on failure), then run the `get_user` handler. -/
def get_user_route (st : Store) (raw : String) : Except HTTPError UserOut :=
  match intParam? raw with
  | none => .error ⟨422, "Input should be a valid integer"⟩
  | some i => get_user st i

/-! ## Connection lifecycle (`Database.get_connection`, `app/db.py` lines 46-62)

`get_connection` is a context manager:

* `try`: `conn = sqlite3.connect("app.db")`, set the row factory, `yield conn`;
* `except`: `if conn: conn.rollback()` then re-raise;
* `finally`: `if conn: conn.close()`.

If `sqlite3.connect` itself raises, the local `conn` was never bound, so the
`if conn:` tests in the `except` and `finally` blocks raise
`UnboundLocalError` instead — the cleanup path itself fails and the original
driver error is masked.  We model one call to `execute_query` /
`execute_non_query` (both wrap their whole body in the context manager and
differ only in what they return) as a function of the two external outcomes:
whether `connect` succeeds, and whether the SQL execution succeeds. -/

/-- An exception propagating out of a data-access call. -/
inductive PyErr where
  | driver (msg : String)
  | unboundLocal
  deriving Repr, DecidableEq

/-- Observable outcome of one data-access call: the value or exception, and
how many connections were acquired and how many were closed. -/
structure ConnOutcome (α : Type) where
  result : Except PyErr α
  acquired : Nat
  closed : Nat
  deriving Repr

/-- One call to `Database.execute_query` / `execute_non_query` through
`get_connection`, given the outcome of `sqlite3.connect` and of the cursor
execution (`app/db.py` lines 46-83). -/
def dbCall {α : Type} (connect : Except PyErr Unit) (exec : Except PyErr α) :
    ConnOutcome α :=
  match connect with
  | .error _ =>
    -- `conn` is unbound: `if conn:` in the except block (and again in the
    -- finally block) raises UnboundLocalError, masking the connect error.
    ⟨.error .unboundLocal, 0, 0⟩
  | .ok _ =>
    match exec with
    | .error e => ⟨.error e, 1, 1⟩   -- rollback, re-raise, finally closes
    | .ok v => ⟨.ok v, 1, 1⟩         -- normal return, finally closes

/-- A two-user store used to instantiate the theorems below. -/
def sampleStore : Store :=
  ⟨[⟨1, "Ana", "a@x.com", "555", 0, 0⟩, ⟨2, "Bob", "b@x.com", "666", 0, 0⟩], 2⟩

/-! ## Helper lemmas -/

theorem filter_isEmpty_false_of_mem {α : Type} {p : α → Bool} {l : List α} {a : α}
    (ha : a ∈ l) (hp : p a = true) : (l.filter p).isEmpty = false := by
  have hmem : a ∈ l.filter p := List.mem_filter.mpr ⟨ha, hp⟩
  cases h : l.filter p with
  | nil => rw [h] at hmem; cases hmem
  | cons _ _ => rfl

theorem filter_eq_nil_of_forall {α : Type} {p : α → Bool} {l : List α}
    (h : ∀ a ∈ l, p a = false) : l.filter p = [] := by
  induction l with
  | nil => rfl
  | cons a l ih =>
    rw [List.filter_cons, h a (List.mem_cons_self a l)]
    exact ih (fun b hb => h b (List.mem_cons_of_mem a hb))

/-! ## Claim theorems -/

/-- C1: a `POST /users/` whose email equals the email of some existing user
returns the 400 duplicate-email conflict and leaves the stored user records
(and the AUTOINCREMENT sequence) unchanged. -/
theorem create_user_duplicate_email (st : Store) (now : Nat) (u : UserCreate)
    (r : StoredUser) (hr : r ∈ st.users) (he : r.email = u.email) :
    create_user st now u = (.error ⟨400, "Email already exists"⟩, st) := by
  unfold create_user
  rw [filter_isEmpty_false_of_mem hr (by simp [he])]
  simp

/-- Witness for C1 on `sampleStore`. -/
theorem create_user_duplicate_email_witness :
    create_user sampleStore 3 ⟨"Cal", "a@x.com", "777"⟩
      = (.error ⟨400, "Email already exists"⟩, sampleStore) :=
  create_user_duplicate_email sampleStore 3 ⟨"Cal", "a@x.com", "777"⟩
    ⟨1, "Ana", "a@x.com", "555", 0, 0⟩ (by decide) rfl

/-- C2: a `POST /users/` with a fresh email succeeds with a generated id, and
a subsequent `GET /users/{id}` on the post-state returns a user whose name,
email and phone are the submitted ones.  `Store.WF` is the AUTOINCREMENT
invariant relating stored ids to the sequence. -/
theorem create_user_then_get (st : Store) (now : Nat) (u : UserCreate)
    (hwf : Store.WF st)
    (hfresh : ∀ r ∈ st.users, ¬ r.email = u.email) :
    ∃ out, (create_user st now u).1 = .ok out
      ∧ out.name = u.name ∧ out.email = u.email ∧ out.phone = u.phone
      ∧ get_user (create_user st now u).2 out.id = .ok out := by
  have hfil : st.users.filter (fun r => r.email == u.email) = [] :=
    filter_eq_nil_of_forall (fun r hr => by simp [hfresh r hr])
  have hidfil : st.users.filter (fun r => r.id == st.seq + 1) = [] :=
    filter_eq_nil_of_forall (fun r hr => by
      have := hwf r hr
      simp only [beq_eq_false_iff_ne, ne_eq]
      omega)
  have hcreate : create_user st now u =
      (.ok ⟨st.seq + 1, u.name, u.email, u.phone⟩,
       ⟨st.users ++ [⟨st.seq + 1, u.name, u.email, u.phone, now, now⟩], st.seq + 1⟩) := by
    unfold create_user
    rw [hfil]
    rfl
  refine ⟨⟨st.seq + 1, u.name, u.email, u.phone⟩, by rw [hcreate], rfl, rfl, rfl, ?_⟩
  rw [hcreate]
  unfold get_user
  rw [List.filter_append, hidfil]
  simp

/-- Witness for C2 on `sampleStore`. -/
theorem create_user_then_get_witness :
    ∃ out, (create_user sampleStore 3 ⟨"Cal", "c@x.com", "777"⟩).1 = .ok out
      ∧ out.name = "Cal" ∧ out.email = "c@x.com" ∧ out.phone = "777"
      ∧ get_user (create_user sampleStore 3 ⟨"Cal", "c@x.com", "777"⟩).2 out.id = .ok out :=
  create_user_then_get sampleStore 3 ⟨"Cal", "c@x.com", "777"⟩
    (by intro r hr; fin_cases hr <;> decide)
    (by intro r hr; fin_cases hr <;> decide)

/-- C3: a `PUT /users/{id}` on an existing user whose body supplies none of
`name`, `email`, `phone` returns the 400 bad-request error and leaves the
store — every stored record, `updated_at` included — unchanged. -/
theorem update_user_empty_body (st : Store) (now : Nat) (uid : Int)
    (r : StoredUser) (hr : r ∈ st.users) (hid : r.id = uid) :
    update_user st now uid ⟨none, none, none⟩
      = (.error ⟨400, "No fields to update"⟩, st) := by
  unfold update_user
  rw [filter_isEmpty_false_of_mem hr (by simp [hid])]
  rfl

/-- Witness for C3 on `sampleStore`. -/
theorem update_user_empty_body_witness :
    update_user sampleStore 5 1 ⟨none, none, none⟩
      = (.error ⟨400, "No fields to update"⟩, sampleStore) :=
  update_user_empty_body sampleStore 5 1 ⟨1, "Ana", "a@x.com", "555", 0, 0⟩ (by decide) rfl

/-- Success path of `update_user`: with the id present, no email collision
and at least one body field, the table becomes the per-row partial update
and the response is the re-selected post-update row. -/
theorem update_user_ok_aux (st : Store) (now : Nat) (uid : Int) (up : UserUpdate)
    (r : StoredUser) (hr : r ∈ st.users) (hid : r.id = uid)
    (hconf : emailConflict st uid up = false)
    (hno : (up.name.isNone && up.email.isNone && up.phone.isNone) = false) :
    (update_user st now uid up).2
      = ⟨st.users.map (fun s => if s.id == uid then applyUpd now up s else s), st.seq⟩
    ∧ ∃ out, (update_user st now uid up).1 = .ok out
        ∧ get_user (update_user st now uid up).2 uid = .ok out := by
  have h1 : (st.users.filter (fun s => s.id == uid)).isEmpty = false :=
    filter_isEmpty_false_of_mem hr (by simp [hid])
  have hmem2 : applyUpd now up r
      ∈ st.users.map (fun s => if s.id == uid then applyUpd now up s else s) := by
    have := List.mem_map_of_mem (fun s => if s.id == uid then applyUpd now up s else s) hr
    simpa [hid] using this
  unfold update_user
  rw [h1, hconf, hno]
  simp only [Bool.false_eq_true, if_false]
  cases hfil : (st.users.map (fun s => if s.id == uid then applyUpd now up s else s)).filter
      (fun s => s.id == uid) with
  | nil =>
    exfalso
    have : applyUpd now up r
        ∈ (st.users.map (fun s => if s.id == uid then applyUpd now up s else s)).filter
            (fun s => s.id == uid) :=
      List.mem_filter.mpr ⟨hmem2, by simp [applyUpd, hid]⟩
    rw [hfil] at this
    cases this
  | cons a l =>
    refine ⟨rfl, ⟨a.id, a.name, a.email, a.phone⟩, rfl, ?_⟩
    unfold get_user
    rw [hfil]

/-- C4 counterexample: on `sampleStore` (ids 1 and 2, `updated_at = 0` for
both), the PUT on existing id 1 at time 5 carrying the single field
`email = "b@x.com"` — the email of user 2 — returns the 400 conflict and
modifies nothing: `updated_at` is not refreshed and no post-update record is
returned, although the request had a field present. -/
theorem update_user_field_present_not_refreshed :
    update_user sampleStore 5 1 ⟨none, some "b@x.com", none⟩
      = (.error ⟨400, "Email already exists"⟩, sampleStore)
    ∧ sampleStore.users.map (fun r => r.updatedAt) = [0, 0] := by decide

/-- C4 (amended): for an existing id and a body with at least one field
whose email, when present, is held by no other user, exactly the supplied
fields are overwritten, `updated_at` is refreshed to the current time, every
other field and every other row is untouched, and the response is the
post-update record (what a subsequent GET returns). -/
theorem update_user_partial_update (st : Store) (now : Nat) (uid : Int)
    (up : UserUpdate) (r : StoredUser) (hr : r ∈ st.users) (hid : r.id = uid)
    (hsome : up.name.isSome ∨ up.email.isSome ∨ up.phone.isSome)
    (hemail : ∀ e, up.email = some e → ∀ s ∈ st.users, ¬ s.id = uid → ¬ s.email = e) :
    (update_user st now uid up).2
      = ⟨st.users.map (fun s => if s.id == uid then applyUpd now up s else s), st.seq⟩
    ∧ ∃ out, (update_user st now uid up).1 = .ok out
        ∧ get_user (update_user st now uid up).2 uid = .ok out := by
  have hconf : emailConflict st uid up = false := by
    unfold emailConflict
    cases hup : up.email with
    | none => rfl
    | some e =>
      show (!(st.users.filter (fun s => s.email == e && !(s.id == uid))).isEmpty) = false
      rw [filter_eq_nil_of_forall]
      · rfl
      · intro s hs
        by_cases h : s.id = uid
        · simp [h]
        · simp [h, hemail e hup s hs h]
  have hno : (up.name.isNone && up.email.isNone && up.phone.isNone) = false := by
    rcases hsome with h | h | h
    · cases hn : up.name with
      | none => rw [hn] at h; simp at h
      | some v => simp [hn]
    · cases hn : up.email with
      | none => rw [hn] at h; simp at h
      | some v => simp [hn]
    · cases hn : up.phone with
      | none => rw [hn] at h; simp at h
      | some v => simp [hn]
  exact update_user_ok_aux st now uid up r hr hid hconf hno

/-- Witness for the amended C4 on `sampleStore`: phone-only update of id 1. -/
theorem update_user_partial_update_witness :
    (update_user sampleStore 5 1 ⟨none, none, some "999"⟩).2
      = ⟨sampleStore.users.map (fun s => if s.id == 1 then applyUpd 5 ⟨none, none, some "999"⟩ s else s),
         sampleStore.seq⟩
    ∧ ∃ out, (update_user sampleStore 5 1 ⟨none, none, some "999"⟩).1 = .ok out
        ∧ get_user (update_user sampleStore 5 1 ⟨none, none, some "999"⟩).2 1 = .ok out :=
  update_user_partial_update sampleStore 5 1 ⟨none, none, some "999"⟩
    ⟨1, "Ana", "a@x.com", "555", 0, 0⟩ (by decide) rfl (by simp)
    (by intro e he; cases he)

/-- C5: a PUT on existing user `u` whose `email` field carries the email of
a different existing user is rejected with the 400 conflict and changes
nothing, while the same PUT carrying `u`'s own current email succeeds.
`huniq` is the storage-level email-uniqueness invariant restricted to `u`. -/
theorem update_user_email_conflict_vs_self (st : Store) (now : Nat)
    (u other : StoredUser) (hu : u ∈ st.users) (ho : other ∈ st.users)
    (hne : ¬ other.id = u.id)
    (huniq : ∀ s ∈ st.users, ¬ s.id = u.id → ¬ s.email = u.email)
    (nm ph : Option String) :
    update_user st now u.id ⟨nm, some other.email, ph⟩
        = (.error ⟨400, "Email already exists"⟩, st)
    ∧ ∃ out, (update_user st now u.id ⟨nm, some u.email, ph⟩).1 = .ok out := by
  constructor
  · have h1 : (st.users.filter (fun s => s.id == u.id)).isEmpty = false :=
      filter_isEmpty_false_of_mem hu (by simp)
    have hconf : emailConflict st u.id ⟨nm, some other.email, ph⟩ = true := by
      unfold emailConflict
      show (!(st.users.filter (fun s => s.email == other.email && !(s.id == u.id))).isEmpty)
        = true
      rw [filter_isEmpty_false_of_mem ho (by simp [hne])]
      rfl
    unfold update_user
    rw [h1, hconf]
    simp
  · have hconf : emailConflict st u.id ⟨nm, some u.email, ph⟩ = false := by
      unfold emailConflict
      show (!(st.users.filter (fun s => s.email == u.email && !(s.id == u.id))).isEmpty)
        = false
      rw [filter_eq_nil_of_forall]
      · rfl
      · intro s hs
        by_cases h : s.id = u.id
        · simp [h]
        · simp [h, huniq s hs h]
    exact (update_user_ok_aux st now u.id ⟨nm, some u.email, ph⟩ u hu rfl hconf
      (by simp)).2.elim (fun out h => ⟨out, h.1⟩)

/-- Witness for C5 on `sampleStore`: u = user 1, other = user 2. -/
theorem update_user_email_conflict_vs_self_witness :
    update_user sampleStore 5 1 ⟨none, some "b@x.com", none⟩
        = (.error ⟨400, "Email already exists"⟩, sampleStore)
    ∧ ∃ out, (update_user sampleStore 5 1 ⟨none, some "a@x.com", none⟩).1 = .ok out :=
  update_user_email_conflict_vs_self sampleStore 5
    ⟨1, "Ana", "a@x.com", "555", 0, 0⟩ ⟨2, "Bob", "b@x.com", "666", 0, 0⟩
    (by decide) (by decide) (by decide) (by decide) none none

/-- C6: deleting a nonexistent id returns the 404 not-found error and leaves
the store unchanged; deleting an existing id removes exactly that user's
rows and returns the confirmation message, after which a second DELETE of
the same id returns 404 and changes nothing further. -/
theorem delete_user_spec (st : Store) (uid : Int) :
    ((∀ r ∈ st.users, ¬ r.id = uid) →
        delete_user st uid = (.error ⟨404, "User not found"⟩, st))
    ∧ (∀ r ∈ st.users, r.id = uid →
        (delete_user st uid).1
            = .ok ("User with ID " ++ toString uid ++ " deleted successfully")
        ∧ (delete_user st uid).2 = ⟨st.users.filter (fun s => !(s.id == uid)), st.seq⟩
        ∧ delete_user (delete_user st uid).2 uid
            = (.error ⟨404, "User not found"⟩, (delete_user st uid).2)) := by
  constructor
  · intro h
    unfold delete_user
    rw [filter_eq_nil_of_forall (fun r hr => by simp [h r hr])]
    rfl
  · intro r hr hid
    have h1 : (st.users.filter (fun s => s.id == uid)).isEmpty = false :=
      filter_isEmpty_false_of_mem hr (by simp [hid])
    have hdel : delete_user st uid
        = (.ok ("User with ID " ++ toString uid ++ " deleted successfully"),
           ⟨st.users.filter (fun s => !(s.id == uid)), st.seq⟩) := by
      unfold delete_user
      rw [h1]
      simp
    refine ⟨by rw [hdel], by rw [hdel], ?_⟩
    rw [hdel]
    unfold delete_user
    rw [filter_eq_nil_of_forall]
    · rfl
    · intro s hs
      have hmem := (List.mem_filter.mp hs).2
      simp only [Bool.not_eq_eq_eq_not, Bool.not_true] at hmem
      exact hmem

theorem likeMatch_single_percent (s : List Char) : likeMatch ['%'] s = true := by
  show (s.tails.any fun t => likeMatch [] t) = true
  rw [List.any_eq_true]
  exact ⟨[], (List.mem_tails _ _).mpr List.nil_suffix, by simp [likeMatch]⟩

/-- A wildcard-free pattern followed by `%` matches exactly the strings that
start (ASCII-case-insensitively) with the pattern. -/
theorem likeMatch_append_percent (qs : List Char) : ∀ (s : List Char),
    (∀ c ∈ qs, ¬c = '%' ∧ ¬c = '_') →
    (likeMatch (qs ++ ['%']) s = true
      ↔ ∃ p, p <+: s ∧ p.map Char.toLower = qs.map Char.toLower) := by
  induction qs with
  | nil =>
    intro s _
    simp only [List.nil_append, List.map_nil]
    constructor
    · intro _
      exact ⟨[], List.nil_prefix, by simp⟩
    · intro _
      exact likeMatch_single_percent s
  | cons a qs ih =>
    intro s hq
    have ha := hq a (List.mem_cons_self a qs)
    have ha1 : (a == '%') = false := by simp [ha.1]
    have ha2 : (a == '_') = false := by simp [ha.2]
    have hq' : ∀ c ∈ qs, ¬c = '%' ∧ ¬c = '_' :=
      fun c hc => hq c (List.mem_cons_of_mem a hc)
    cases s with
    | nil =>
      simp only [List.cons_append, likeMatch, ha1, Bool.false_eq_true, if_false]
      constructor
      · intro h
        cases h
      · rintro ⟨p, hp, hmap⟩
        rw [List.prefix_nil.mp hp] at hmap
        cases hmap
    | cons c cs =>
      simp only [List.cons_append, likeMatch, ha1, ha2, Bool.false_eq_true, if_false,
        Bool.and_eq_true, beq_iff_eq, List.map_cons]
      constructor
      · rintro ⟨heq, hrest⟩
        rcases (ih cs hq').mp hrest with ⟨p, hp, hmap⟩
        exact ⟨c :: p, List.cons_prefix_cons.mpr ⟨rfl, hp⟩, by
          rw [List.map_cons, hmap, heq]⟩
      · rintro ⟨p, hp, hmap⟩
        cases p with
        | nil => cases hmap
        | cons x p =>
          rcases List.cons_prefix_cons.mp hp with ⟨rfl, hp'⟩
          rw [List.map_cons] at hmap
          injection hmap with h1 h2
          exact ⟨h1.symm, (ih cs hq').mpr ⟨p, hp', h2⟩⟩

/-- Every suffix of a mapped list is the image of a suffix. -/
theorem exists_suffix_of_suffix_map {α β : Type} (f : α → β) (s : List α)
    (t : List β) (h : t <:+ s.map f) : ∃ u, u <:+ s ∧ u.map f = t := by
  induction s with
  | nil =>
    rw [List.map_nil, List.suffix_nil] at h
    exact ⟨[], List.nil_suffix, by rw [h, List.map_nil]⟩
  | cons a s ih =>
    rw [List.map_cons] at h
    rcases List.suffix_cons_iff.mp h with h | h
    · exact ⟨a :: s, List.suffix_refl _, by rw [List.map_cons, h]⟩
    · rcases ih h with ⟨u, hu, hmap⟩
      exact ⟨u, hu.trans (List.suffix_cons a s), hmap⟩

/-- SQLite `LIKE` with pattern `%q%` for a wildcard-free `q` is exactly
ASCII-case-insensitive substring containment. -/
theorem likeMatch_percent_wrap (qs : List Char) (s : List Char)
    (hq : ∀ c ∈ qs, ¬c = '%' ∧ ¬c = '_') :
    likeMatch ('%' :: (qs ++ ['%'])) s = true
      ↔ (qs.map Char.toLower) <:+: (s.map Char.toLower) := by
  have hunf : likeMatch ('%' :: (qs ++ ['%'])) s
      = s.tails.any (fun t => likeMatch (qs ++ ['%']) t) := rfl
  rw [hunf, List.any_eq_true]
  constructor
  · rintro ⟨t, ht, hmatch⟩
    rw [List.mem_tails] at ht
    rcases (likeMatch_append_percent qs t hq).mp hmatch with ⟨p, hp, hmap⟩
    rw [List.infix_iff_prefix_suffix]
    exact ⟨t.map Char.toLower, by rw [← hmap]; exact hp.map Char.toLower,
      ht.map Char.toLower⟩
  · intro h
    rcases List.infix_iff_prefix_suffix.mp h with ⟨t', hpre, hsuf⟩
    rcases exists_suffix_of_suffix_map Char.toLower s t' hsuf with ⟨u, hu, hmap⟩
    refine ⟨u, (List.mem_tails _ _).mpr hu, (likeMatch_append_percent qs u hq).mpr ?_⟩
    refine ⟨u.take qs.length, List.take_prefix _ _, ?_⟩
    rw [List.map_take, hmap]
    rcases hpre with ⟨rest, hrest⟩
    rw [← hrest]
    exact List.take_left' (List.length_map _ _)

/-- `infixOf` decides list containment. -/
theorem infixOf_iff (q s : List Char) : infixOf q s = true ↔ q <:+: s := by
  unfold infixOf
  rw [List.any_eq_true]
  constructor
  · rintro ⟨t, ht, hp⟩
    rw [List.mem_tails] at ht
    rw [List.infix_iff_prefix_suffix]
    exact ⟨t, List.isPrefixOf_iff_prefix.mp hp, ht⟩
  · intro h
    rcases List.infix_iff_prefix_suffix.mp h with ⟨t, hp, hs⟩
    exact ⟨t, (List.mem_tails _ _).mpr hs, List.isPrefixOf_iff_prefix.mpr hp⟩

theorem bool_eq_of_iff {a b : Bool} (h : a = true ↔ b = true) : a = b := by
  cases a <;> cases b <;> simp_all

/-- C7 counterexample: on `sampleStore`, the query `"ANA"` occurs as a
(case-sensitive) substring of no user's name or email, yet the search
returns user 1 (`"Ana"`): SQLite `LIKE` compares ASCII letters
case-insensitively, so the result set is not "exactly the users whose name
or email contains q as a substring". -/
theorem search_users_substring_cex :
    search_users sampleStore "ANA" = [⟨1, "Ana", "a@x.com", "555"⟩]
    ∧ sampleStore.users.filter
        (fun r => containsSub "ANA" r.name || containsSub "ANA" r.email) = [] := by
  decide

/-- C7 (amended): for a query with no `LIKE` wildcard (`%` or `_`), the
search returns exactly the users whose name or email contains the query as
an ASCII-case-insensitive substring, capped at the first 20 matches; a query
containing `%` or `_` is instead interpreted as a `LIKE` pattern. -/
theorem search_users_ci_substring (st : Store) (q : String)
    (hq : ∀ c ∈ q.toList, ¬c = '%' ∧ ¬c = '_') :
    search_users st q
      = ((st.users.filter (fun r => containsCI q r.name || containsCI q r.email)).take 20).map
          (fun r => ⟨r.id, r.name, r.email, r.phone⟩) := by
  have hpred : ∀ s : String, sqlLike ("%" ++ q ++ "%") s = containsCI q s := by
    intro s
    unfold sqlLike containsCI
    have htl : ("%" ++ q ++ "%").toList = '%' :: (q.toList ++ ['%']) := by
      show ("%" ++ q ++ "%").data = '%' :: (q.data ++ ['%'])
      rw [String.data_append, String.data_append]
      rfl
    rw [htl]
    exact bool_eq_of_iff
      ((likeMatch_percent_wrap q.toList s.toList hq).trans
        (infixOf_iff (q.toList.map Char.toLower) (s.toList.map Char.toLower)).symm)
  unfold search_users
  simp only [hpred]

/-- Witness for the amended C7 on `sampleStore` with the wildcard-free
query `"na"`. -/
theorem search_users_ci_substring_witness :
    search_users sampleStore "na"
      = ((sampleStore.users.filter
            (fun r => containsCI "na" r.name || containsCI "na" r.email)).take 20).map
          (fun r => ⟨r.id, r.name, r.email, r.phone⟩) :=
  search_users_ci_substring sampleStore "na" (by decide)

/-- C8 counterexample: a `POST /users/` carrying an empty name and an empty
phone (with a fresh, syntactically valid email) passes the boundary and the
handler, is inserted, and so a stored user with empty name and phone text
exists afterwards. -/
theorem post_users_accepts_empty_name_phone :
    post_users ⟨[], 0⟩ 0 ⟨"", "a@x.com", ""⟩
      = (.ok ⟨1, "", "a@x.com", ""⟩, ⟨[⟨1, "", "a@x.com", "", 0, 0⟩], 1⟩) := by
  decide

/-- C8 (amended): the create boundary validates only the email's syntax;
`name` and `phone` are accepted as arbitrary strings — empty included — so a
create with a fresh valid email always succeeds regardless of the name and
phone texts, and stores them as given. -/
theorem post_users_no_name_phone_validation (st : Store) (now : Nat)
    (nameText phoneText emailText : String)
    (hem : emailSyntaxOK emailText = true)
    (hfresh : ∀ r ∈ st.users, ¬ r.email = emailText) :
    post_users st now ⟨nameText, emailText, phoneText⟩
      = (.ok ⟨st.seq + 1, nameText, emailText, phoneText⟩,
         ⟨st.users ++ [⟨st.seq + 1, nameText, emailText, phoneText, now, now⟩],
          st.seq + 1⟩) := by
  unfold post_users
  rw [hem]
  simp only [if_true]
  unfold create_user
  rw [filter_eq_nil_of_forall (fun r hr => by simp [hfresh r hr])]
  rfl

/-- Witness for the amended C8: empty name and phone on `sampleStore`. -/
theorem post_users_no_name_phone_validation_witness :
    post_users sampleStore 3 ⟨"", "c@x.com", ""⟩
      = (.ok ⟨3, "", "c@x.com", ""⟩,
         ⟨sampleStore.users ++ [⟨3, "", "c@x.com", "", 3, 3⟩], 3⟩) :=
  post_users_no_name_phone_validation sampleStore 3 "" "" "c@x.com"
    (by decide) (by decide)

/-- C9: acquired and closed connection counts balance on every path of a
data-access call — nothing leaks — but on a failing `sqlite3.connect` the
call's own error path raises `UnboundLocalError` (the `if conn:` guards read
a never-bound local), masking the driver error: the error path can itself
fail, contrary to the claim. -/
theorem dbCall_no_leak_but_connect_failure_masks :
    (∀ (c : Except PyErr Unit) (e : Except PyErr (List String)),
        (dbCall c e).acquired = (dbCall c e).closed)
    ∧ (dbCall (α := List String)
          (.error (.driver "unable to open database file")) (.ok [])).result
        = .error .unboundLocal := by
  constructor
  · intro c e
    cases c with
    | error _ => rfl
    | ok _ => cases e <;> rfl
  · rfl

/-- `matchRoute` against a two-literal pattern pins the path down. -/
theorem matchRoute_lit2 (a b : String) (segs : List String)
    (h : matchRoute [.lit a, .lit b] segs = true) : segs = [a, b] := by
  cases segs with
  | nil => simp [matchRoute] at h
  | cons x t =>
    cases t with
    | nil => simp [matchRoute] at h
    | cons y t2 =>
      cases t2 with
      | cons z t3 => simp [matchRoute] at h
      | nil =>
        simp [matchRoute, matchSeg] at h
        rw [h.1, h.2]

/-- C10: the route `GET /users/{user_id}` is registered before
`GET /users/search`, and Starlette dispatches to the first match, so the
literal path `/users/search` is captured by the get-by-id route with
`user_id = "search"`; integer coercion of `"search"` fails, producing a 422
validation error, and no path at all dispatches to the search handler. -/
theorem search_route_shadowed (st : Store) :
    dispatchGET ["users", "search"] = some .getUser
    ∧ get_user_route st "search" = .error ⟨422, "Input should be a valid integer"⟩
    ∧ ∀ segs : List String, ¬ dispatchGET segs = some .searchUsers := by
  refine ⟨by decide, rfl, ?_⟩
  intro segs h
  unfold dispatchGET at h
  cases hopt : getRoutes.find? (fun r => matchRoute r.1 segs) with
  | none => rw [hopt] at h; cases h
  | some pr =>
    rw [hopt] at h
    obtain ⟨pat, hd⟩ := pr
    have hhd : hd = .searchUsers := Option.some.inj h
    have hmem := List.mem_of_find?_eq_some hopt
    have hsat := List.find?_some hopt
    simp only [getRoutes, List.mem_cons, List.mem_singleton, Prod.mk.injEq,
      List.not_mem_nil, or_false] at hmem
    rcases hmem with ⟨_, h2⟩ | ⟨_, h2⟩ | ⟨_, h2⟩ | ⟨_, h2⟩ | ⟨_, h2⟩ | ⟨h1, h2⟩
    · subst h2; cases hhd
    · subst h2; cases hhd
    · subst h2; cases hhd
    · subst h2; cases hhd
    · subst h2; cases hhd
    · subst h2
      rw [h1] at hsat
      have hsegs := matchRoute_lit2 "users" "search" segs hsat
      rw [hsegs, h1] at hopt
      exact absurd hopt (by decide)

/-- Witness for C6 on `sampleStore`: uid 9 is absent, uid 1 is present. -/
theorem delete_user_spec_witness :
    delete_user sampleStore 9 = (.error ⟨404, "User not found"⟩, sampleStore)
    ∧ ((delete_user sampleStore 1).1
          = .ok ("User with ID " ++ toString (1 : Int) ++ " deleted successfully")
       ∧ (delete_user sampleStore 1).2
          = ⟨sampleStore.users.filter (fun s => !(s.id == 1)), sampleStore.seq⟩
       ∧ delete_user (delete_user sampleStore 1).2 1
          = (.error ⟨404, "User not found"⟩, (delete_user sampleStore 1).2)) :=
  ⟨(delete_user_spec sampleStore 9).1 (by decide),
   (delete_user_spec sampleStore 1).2 ⟨1, "Ana", "a@x.com", "555", 0, 0⟩ (by decide) rfl⟩
